import Mathlib

/-!
Shallow embedding of go-redis-reservation (package `reservation`,
reservation.go): a distributed lock with lease held in redis.

The redis store is modelled as an association list from key to
(value, absolute expiry instant in seconds); the four redis commands the
package issues (SET ... EX ... NX, GET, EXPIRE, DEL) are modelled with
their single-key atomic semantics.  Transport failures of a round trip are
injected through explicit `Option String` fault parameters (the error text
redigo would surface).  Durations are in whole seconds, as the Go code
passes `Duration.Seconds()` to redis.
-/

namespace GoRedisReservation

/-- One stored redis entry: the string value and the absolute expiry
instant (in seconds since an arbitrary epoch), as set by SET ... EX or by
EXPIRE. -/
structure Entry where
  value : String
  expiry : Nat
deriving Repr, DecidableEq

/-- The redis keyspace: an association list from key to entry.  The
operations below keep at most one entry per key. -/
abbrev Store := List (String × Entry)

/-- The entry currently recorded under a key, expired or not. -/
def lookupEntry (st : Store) (k : String) : Option Entry :=
  (st.find? (fun p => p.1 == k)).map (fun p => p.2)

/-- The value visible under a key at instant `now`: present iff an entry
exists and has not yet expired (redis expiry semantics). -/
def lookupLive (st : Store) (now : Nat) (k : String) : Option String :=
  match lookupEntry st k with
  | some e => if now < e.expiry then some e.value else none
  | none => none

/-- Remove every entry recorded under a key. -/
def eraseKey (st : Store) (k : String) : Store :=
  st.filter (fun p => !(p.1 == k))

/-- SET key value EX ttl NX: atomically set the value only if the key is
absent (or expired), with expiry `now + ttl`; returns the new store and
whether the write was applied. -/
def setNX (st : Store) (now : Nat) (k v : String) (ttl : Nat) : Store × Bool :=
  match lookupLive st now k with
  | some _ => (st, false)
  | none => ((k, ⟨v, now + ttl⟩) :: eraseKey st k, true)

/-- GET key: point read of the live value. -/
def getCmd (st : Store) (now : Nat) (k : String) : Option String :=
  lookupLive st now k

/-- EXPIRE key ttl: refresh the expiry of a live key to `now + ttl`;
returns 1 if the key existed and was refreshed, 0 if it was absent. -/
def expireCmd (st : Store) (now : Nat) (k : String) (ttl : Nat) : Store × Nat :=
  match lookupLive st now k with
  | some v => ((k, ⟨v, now + ttl⟩) :: eraseKey st k, 1)
  | none => (st, 0)

/-- DEL key: remove the key; returns the number of live keys removed. -/
def delCmd (st : Store) (now : Nat) (k : String) : Store × Nat :=
  match lookupLive st now k with
  | some _ => (eraseKey st k, 1)
  | none => (eraseKey st k, 0)

/-- `type Manager struct`: the owner label plus the two exported mutable
duration fields, in seconds. -/
structure Manager where
  owner : String
  Heartbeat : Nat
  TTL : Nat
deriving Repr, DecidableEq

/-- The manager `NewManager` builds after a successful PING:
Heartbeat = 15 minutes, TTL = 4 hours. -/
def newManagerDefaults (owner : String) : Manager :=
  { owner := owner, Heartbeat := 15 * 60, TTL := 4 * 60 * 60 }

/-- `NewManager`: ping the store; on ping failure return the connection
error, otherwise the default-configured manager.  `pingErr` injects a
failure of the PING round trip. -/
def NewManager (owner : String) (pingErr : Option String) : Except String Manager :=
  match pingErr with
  | some e => Except.error ("Error connecting to redis: " ++ e)
  | none => Except.ok (newManagerDefaults owner)

/-- Assignment to the exported mutable field `manager.Heartbeat`. -/
def setHeartbeat (m : Manager) (h : Nat) : Manager := { m with Heartbeat := h }

/-- Assignment to the exported mutable field `manager.TTL`. -/
def setTTL (m : Manager) (t : Nat) : Manager := { m with TTL := t }

/-- `redisKey`: fmt.Sprintf("reservation-%s", resource). -/
def redisKey (resource : String) : String := "reservation-" ++ resource

/-- `type Reservation struct`: the in-memory handle of one acquired
reservation. -/
structure Reservation where
  stopped : Bool
  key : String
  Value : String
  ttl : Nat
deriving Repr, DecidableEq

/-- The error message `Lock` returns when the conditional SET is rejected,
fmt.Errorf("Reservation already exists for resource %s", resource). -/
def alreadyExistsMsg (resource : String) : String :=
  "Reservation already exists for resource " ++ resource

/-- Everything `Manager.Lock` produces: the returned (reservation, error)
pair as an Except, the store after the SET round trip, and how many
heartbeat goroutines were started (the `go func` is reached only on the
success path). -/
structure LockResult where
  result : Except String Reservation
  store : Store
  tasksStarted : Nat

/-- `Manager.Lock`: one SET key val EX TTL NX; on a redis error propagate
it, on a nil reply return the already-exists error, on success build the
reservation and start one heartbeat goroutine.  `jobID` stands for
os.Getenv("JOB_ID"); `setFault` injects a transport failure of the SET
round trip. -/
def Lock (m : Manager) (jobID resource : String) (st : Store) (now : Nat)
    (setFault : Option String) : LockResult :=
  let key := redisKey resource
  let val := m.owner ++ "-" ++ jobID
  match setFault with
  | some e =>
    { result := Except.error ("Error with SET command: " ++ e)
      store := st, tasksStarted := 0 }
  | none =>
    match setNX st now key val m.TTL with
    | (st', true) =>
      { result := Except.ok { stopped := false, key := key, Value := val, ttl := m.TTL }
        store := st', tasksStarted := 1 }
    | (st', false) =>
      { result := Except.error (alreadyExistsMsg resource)
        store := st', tasksStarted := 0 }

/-- `Reservation.heartbeat`: GET the key, fail if the GET errors, the key
is gone (redigo turns the nil reply into an error), or the stored owner
differs from this reservation's Value; otherwise EXPIRE the key to ttl
from now and return the EXPIRE reply code unchecked.  The GET and the
EXPIRE are two separate round trips, so they happen at two instants
`tGet ≤ tExpire`; `getFault` and `expireFault` inject transport failures
of the two round trips. -/
def heartbeat (res : Reservation) (st : Store) (tGet tExpire : Nat)
    (getFault expireFault : Option String) : Except String (Nat × Store) :=
  match getFault with
  | some e =>
    Except.error ("Could not fetch owner of reservation " ++ res.key ++ ": ERR " ++ e)
  | none =>
    match getCmd st tGet res.key with
    | none =>
      Except.error
        ("Could not fetch owner of reservation " ++ res.key ++ ": ERR redigo: nil returned")
    | some v =>
      if v ≠ res.Value then
        Except.error ("Reservation for " ++ res.key ++ " has unknown owner " ++ v)
      else
        match expireFault with
        | some e =>
          Except.error ("Could not extend reservation " ++ res.key ++ ": ERR " ++ e)
        | none =>
          match expireCmd st tExpire res.key res.ttl with
          | (st', success) => Except.ok (success, st')

/-- Outcome of one iteration of the heartbeat goroutine's loop body. -/
inductive TickResult where
  | exited
  | panicked (msg : String)
  | continued (st : Store)
deriving Repr, DecidableEq

/-- One iteration of the `go func` loop in `Manager.Lock`: if the
reservation is stopped, break out of the loop; otherwise run heartbeat,
panicking on any heartbeat error and panicking when the EXPIRE reply code
is not 1. -/
def renewalTick (res : Reservation) (st : Store) (tGet tExpire : Nat)
    (getFault expireFault : Option String) : TickResult :=
  if res.stopped then .exited
  else
    match heartbeat res st tGet tExpire getFault expireFault with
    | Except.error e => .panicked e
    | Except.ok (success, st') =>
      if success ≠ 1 then
        .panicked ("Got code " ++ toString success ++ " when attempting to extend reservation")
      else
        .continued st'

/-- Everything `Reservation.Release` produces: the reservation with its
updated stopped flag, the store after the DEL round trip, the DEL reply
(number of keys removed), and the returned error if any. -/
structure ReleaseResult where
  res : Reservation
  store : Store
  removed : Nat
  err : Option String

/-- `Reservation.Release`: DEL the key, then unconditionally set
stopped = true (even when the DEL failed), and return an error exactly
when the DEL round trip failed.  `delFault` injects a transport failure of
the DEL round trip. -/
def Release (res : Reservation) (st : Store) (now : Nat)
    (delFault : Option String) : ReleaseResult :=
  match delFault with
  | some e =>
    { res := { res with stopped := true }, store := st, removed := 0
      err := some ("Error deleting reservation key for " ++ res.key ++ ": " ++ e) }
  | none =>
    match delCmd st now res.key with
    | (st', n) =>
      { res := { res with stopped := true }, store := st', removed := n, err := none }

/-- The environment one `Lock` attempt inside `WaitUntilLock` runs
against: the store contents and instant at that attempt, and an injected
SET transport fault if any. -/
structure AttemptEnv where
  store : Store
  now : Nat
  fault : Option String

/-- Outcome of `WaitUntilLock` run against a finite list of per-attempt
environments: acquired or failed after `sleeps` one-second sleeps, or
still retrying when the supplied environments ran out. -/
inductive WaitResult where
  | acquired (res : Reservation) (sleeps : Nat)
  | failed (err : String) (sleeps : Nat)
  | pending (sleeps : Nat)
deriving Repr

/-- The string comparison `WaitUntilLock` uses to recognise the
already-exists error. -/
def reservationAlreadyExists (resource err : String) : Bool :=
  err == alreadyExistsMsg resource

/-- `Manager.WaitUntilLock`: call `Lock`; as long as the error is exactly
the already-exists message, sleep one second and call `Lock` again; any
other error, or a success, ends the loop.  Each attempt runs against the
next environment in the list; `sleeps` counts the one-second sleeps taken
so far (so it also counts the retries). -/
def WaitUntilLock (m : Manager) (jobID resource : String) :
    List AttemptEnv → Nat → WaitResult
  | [], sleeps => .pending sleeps
  | e :: rest, sleeps =>
    match (Lock m jobID resource e.store e.now e.fault).result with
    | Except.ok res => .acquired res sleeps
    | Except.error err =>
      if reservationAlreadyExists resource err then
        WaitUntilLock m jobID resource rest (sleeps + 1)
      else
        .failed err sleeps

/-- A set of concurrent `Lock` calls for one resource: since the SET NX is
atomic, the store serialises them in some order; this folds the calls in
that order, threading the store, with no transport faults.  Each caller is
a manager paired with its JOB_ID. -/
def runLocks (resource : String) (now : Nat) :
    List (Manager × String) → Store → List (Except String Reservation) × Store
  | [], st => ([], st)
  | c :: cs, st =>
    ((Lock c.1 c.2 resource st now none).result ::
       (runLocks resource now cs (Lock c.1 c.2 resource st now none).store).1,
     (runLocks resource now cs (Lock c.1 c.2 resource st now none).store).2)

/-- Whether a `Lock` outcome is a success. -/
def isOkRes : Except String Reservation → Bool
  | Except.ok _ => true
  | Except.error _ => false

/-! Basic store lemmas. -/

/-- Looking up the key just consed onto the store yields its entry, subject
to expiry. -/
theorem lookupLive_cons_self (k : String) (e : Entry) (st : Store) (t : Nat) :
    lookupLive ((k, e) :: st) t k = if t < e.expiry then some e.value else none := by
  simp [lookupLive, lookupEntry, List.find?]

/-- `find?` for a key never succeeds on a store this key was erased from. -/
theorem find?_eraseKey (st : Store) (k : String) :
    List.find? (fun p => p.1 == k) (eraseKey st k) = none := by
  induction st with
  | nil => rfl
  | cons a st ih =>
    by_cases h : a.1 = k
    · simp [eraseKey, List.filter_cons, h]
    · simp [eraseKey, List.filter_cons, h, List.find?]

/-- No entry survives under an erased key. -/
theorem lookupEntry_eraseKey (st : Store) (k : String) :
    lookupEntry (eraseKey st k) k = none := by
  simp [lookupEntry, find?_eraseKey]

/-- No live value survives under an erased key. -/
theorem lookupLive_eraseKey (st : Store) (t : Nat) (k : String) :
    lookupLive (eraseKey st k) t k = none := by
  simp [lookupLive, lookupEntry_eraseKey]

/-! Unfolding lemmas for `Lock`. -/

/-- `Lock` when the key is live: the conditional SET is rejected and the
call fails with the already-exists error, touching nothing. -/
theorem Lock_of_held (m : Manager) (jobID resource : String) (st : Store) (now : Nat)
    (v : String) (h : lookupLive st now (redisKey resource) = some v) :
    Lock m jobID resource st now none =
      { result := Except.error (alreadyExistsMsg resource), store := st, tasksStarted := 0 } := by
  simp [Lock, setNX, h]

/-- `Lock` when the key is absent (or expired): the conditional SET is
applied and the call returns a fresh reservation, starting one goroutine. -/
theorem Lock_of_free (m : Manager) (jobID resource : String) (st : Store) (now : Nat)
    (h : lookupLive st now (redisKey resource) = none) :
    Lock m jobID resource st now none =
      { result := Except.ok { stopped := false, key := redisKey resource,
                              Value := m.owner ++ "-" ++ jobID, ttl := m.TTL }
        store := (redisKey resource, ⟨m.owner ++ "-" ++ jobID, now + m.TTL⟩) ::
                   eraseKey st (redisKey resource)
        tasksStarted := 1 } := by
  simp [Lock, setNX, h]

/-- C2: `Lock` on resource R issues a single conditional SET ... EX ... NX
for `redisKey R`; if the key is already present it returns the
already-exists error naming the resource, no reservation and starts no
task; if the write succeeds it returns an active reservation
(stopped = false, key and identity recorded) and starts exactly one
background renewal task, the store now holding the identity under the key
with expiry `now + TTL`. -/
theorem lock_result_spec (m : Manager) (jobID resource : String) (st : Store) (now : Nat) :
    (∀ v, lookupLive st now (redisKey resource) = some v →
      (Lock m jobID resource st now none).result = Except.error (alreadyExistsMsg resource) ∧
      alreadyExistsMsg resource = "Reservation already exists for resource " ++ resource ∧
      (Lock m jobID resource st now none).tasksStarted = 0) ∧
    (lookupLive st now (redisKey resource) = none →
      (Lock m jobID resource st now none).result =
        Except.ok { stopped := false, key := redisKey resource,
                    Value := m.owner ++ "-" ++ jobID, ttl := m.TTL } ∧
      (Lock m jobID resource st now none).tasksStarted = 1 ∧
      (Lock m jobID resource st now none).store =
        (redisKey resource, ⟨m.owner ++ "-" ++ jobID, now + m.TTL⟩) ::
          eraseKey st (redisKey resource)) := by
  constructor
  · intro v h
    rw [Lock_of_held m jobID resource st now v h]
    exact ⟨rfl, rfl, rfl⟩
  · intro h
    rw [Lock_of_free m jobID resource st now h]
    exact ⟨rfl, rfl, rfl⟩

/-- Witness for C2: with the key held, `Lock` fails with the already-exists
error; on an empty store it starts exactly one renewal task. -/
theorem lock_result_spec_w :
    (Lock (newManagerDefaults "w") "1" "res"
        [("reservation-res", ⟨"other", 10⟩)] 0 none).result =
      Except.error (alreadyExistsMsg "res") ∧
    (Lock (newManagerDefaults "w") "1" "res" [] 0 none).tasksStarted = 1 :=
  ⟨((lock_result_spec (newManagerDefaults "w") "1" "res"
      [("reservation-res", ⟨"other", 10⟩)] 0).1 "other" (by rfl)).1,
   ((lock_result_spec (newManagerDefaults "w") "1" "res" [] 0).2 (by rfl)).2.1⟩

/-- C3: with the reservation not stopped, every failing renewal step
panics the hosting goroutine (terminating the process) rather than
returning a recoverable error: a GET transport failure, the key being
gone, the stored owner differing from this lease's identity, an EXPIRE
transport failure, and the EXPIRE reply code 0 (key expired between the
two round trips) all panic; only a matching GET followed by an applied
EXPIRE continues, with the key's expiry extended to TTL from now. -/
theorem heartbeat_failure_is_fatal (res : Reservation) (st : Store) (tGet tExpire : Nat)
    (hrun : res.stopped = false) :
    (∀ e ef, renewalTick res st tGet tExpire (some e) ef =
      TickResult.panicked
        ("Could not fetch owner of reservation " ++ res.key ++ ": ERR " ++ e)) ∧
    (getCmd st tGet res.key = none → ∀ ef,
      renewalTick res st tGet tExpire none ef =
        TickResult.panicked
          ("Could not fetch owner of reservation " ++ res.key ++
            ": ERR redigo: nil returned")) ∧
    (∀ v, getCmd st tGet res.key = some v → v ≠ res.Value → ∀ ef,
      renewalTick res st tGet tExpire none ef =
        TickResult.panicked ("Reservation for " ++ res.key ++ " has unknown owner " ++ v)) ∧
    (getCmd st tGet res.key = some res.Value → ∀ e,
      renewalTick res st tGet tExpire none (some e) =
        TickResult.panicked ("Could not extend reservation " ++ res.key ++ ": ERR " ++ e)) ∧
    (getCmd st tGet res.key = some res.Value → lookupLive st tExpire res.key = none →
      renewalTick res st tGet tExpire none none =
        TickResult.panicked "Got code 0 when attempting to extend reservation") ∧
    (∀ v', getCmd st tGet res.key = some res.Value → lookupLive st tExpire res.key = some v' →
      renewalTick res st tGet tExpire none none =
        TickResult.continued ((res.key, ⟨v', tExpire + res.ttl⟩) :: eraseKey st res.key)) := by
  refine ⟨?_, ?_, ?_, ?_, ?_, ?_⟩
  · intro e ef
    simp [renewalTick, heartbeat, hrun]
  · intro h ef
    simp [renewalTick, heartbeat, hrun, h]
  · intro v hv hne ef
    simp [renewalTick, heartbeat, hrun, hv, hne]
  · intro h e
    simp [renewalTick, heartbeat, hrun, h]
  · intro h hdead
    simp [renewalTick, heartbeat, hrun, h, expireCmd, hdead]
    rfl
  · intro v' h hlive
    simp [renewalTick, heartbeat, hrun, h, expireCmd, hlive]

/-- Witness for C3: on an empty store the renewal step finds the key gone
and the tick panics. -/
theorem heartbeat_failure_is_fatal_w :
    renewalTick ⟨false, "reservation-r", "w-1", 100⟩ [] 0 0 none none =
      TickResult.panicked
        "Could not fetch owner of reservation reservation-r: ERR redigo: nil returned" :=
  (heartbeat_failure_is_fatal ⟨false, "reservation-r", "w-1", 100⟩ [] 0 0 rfl).2.1 rfl none

/-- C4: `Release` deletes the reservation key and unconditionally sets the
stopped flag even when the delete fails; a failing delete returns an error
while the lease is still marked stopped locally and the store is left
untouched, so the stale entry dies on its own once its expiry instant
passes; a successful delete removes the key and returns no error; in
either case the next tick of the renewal goroutine exits. -/
theorem release_always_stops (res : Reservation) (st : Store) (now : Nat)
    (delFault : Option String) :
    (Release res st now delFault).res.stopped = true ∧
    (delFault = none →
      (Release res st now delFault).err = none ∧
      (Release res st now delFault).store = eraseKey st res.key ∧
      ∀ t, lookupLive ((Release res st now delFault).store) t res.key = none) ∧
    (∀ e, delFault = some e →
      (Release res st now delFault).err =
        some ("Error deleting reservation key for " ++ res.key ++ ": " ++ e) ∧
      (Release res st now delFault).store = st ∧
      ∀ en, lookupEntry st res.key = some en →
        ∀ t, en.expiry ≤ t → lookupLive st t res.key = none) ∧
    (∀ (st₂ : Store) (tG tE : Nat) (gf ef : Option String),
      renewalTick (Release res st now delFault).res st₂ tG tE gf ef =
        TickResult.exited) := by
  refine ⟨?_, ?_, ?_, ?_⟩
  · cases delFault with
    | some e => rfl
    | none =>
      cases h : lookupLive st now res.key with
      | some v => simp [Release, delCmd, h]
      | none => simp [Release, delCmd, h]
  · rintro rfl
    refine ⟨?_, ?_, ?_⟩
    · cases h : lookupLive st now res.key <;> simp [Release, delCmd, h]
    · cases h : lookupLive st now res.key <;> simp [Release, delCmd, h]
    · intro t
      have hs : (Release res st now none).store = eraseKey st res.key := by
        cases h : lookupLive st now res.key <;> simp [Release, delCmd, h]
      rw [hs]
      exact lookupLive_eraseKey st t res.key
  · rintro e rfl
    refine ⟨rfl, rfl, ?_⟩
    intro en hen t ht
    simp [lookupLive, hen]
    omega
  · intro st₂ tG tE gf ef
    have hstop : (Release res st now delFault).res.stopped = true := by
      cases delFault with
      | some e => rfl
      | none =>
        cases h : lookupLive st now res.key with
        | some v => simp [Release, delCmd, h]
        | none => simp [Release, delCmd, h]
    simp [renewalTick, hstop]

/-- Witness for C4: releasing with an injected DEL transport failure still
marks the lease stopped and surfaces the delete error. -/
theorem release_always_stops_w :
    (Release ⟨false, "reservation-r", "w-1", 100⟩
        [("reservation-r", ⟨"w-1", 100⟩)] 0 (some "broken pipe")).res.stopped = true ∧
    (Release ⟨false, "reservation-r", "w-1", 100⟩
        [("reservation-r", ⟨"w-1", 100⟩)] 0 (some "broken pipe")).err =
      some "Error deleting reservation key for reservation-r: broken pipe" :=
  ⟨(release_always_stops ⟨false, "reservation-r", "w-1", 100⟩
      [("reservation-r", ⟨"w-1", 100⟩)] 0 (some "broken pipe")).1,
   ((release_always_stops ⟨false, "reservation-r", "w-1", 100⟩
      [("reservation-r", ⟨"w-1", 100⟩)] 0 (some "broken pipe")).2.2.1
        "broken pipe" rfl).1⟩

/-- C6: once a `Release` has set the stopped flag, the next iteration of
the renewal goroutine observes it and breaks out of the loop before any
renewal step runs, so whatever the store now holds (in particular the key
already deleted, which would make the step fail) and whatever transport
faults would occur, that final iteration never panics — the benign final
tick after a Release is never escalated. -/
theorem final_tick_after_release_benign (res : Reservation) (st : Store) (now : Nat)
    (delFault : Option String) (st₂ : Store) (tG tE : Nat) (gf ef : Option String) :
    renewalTick (Release res st now delFault).res st₂ tG tE gf ef = TickResult.exited := by
  have hstop : (Release res st now delFault).res.stopped = true := by
    cases delFault with
    | some e => rfl
    | none =>
      cases h : lookupLive st now res.key with
      | some v => simp [Release, delCmd, h]
      | none => simp [Release, delCmd, h]
  simp [renewalTick, hstop]

/-- C9: a second `Release` of the same lease leaves the stopped flag true
exactly as the first did, and its DEL of the now-absent key is a no-op
success: it reports 0 keys removed and returns no error. -/
theorem release_idempotent (res : Reservation) (st : Store) (now now' : Nat) :
    (Release res st now none).res.stopped = true ∧
    (Release (Release res st now none).res
        (Release res st now none).store now' none).res.stopped = true ∧
    (Release (Release res st now none).res
        (Release res st now none).store now' none).removed = 0 ∧
    (Release (Release res st now none).res
        (Release res st now none).store now' none).err = none := by
  have h1res : (Release res st now none).res = { res with stopped := true } := by
    cases h : lookupLive st now res.key <;> simp [Release, delCmd, h]
  have h1st : (Release res st now none).store = eraseKey st res.key := by
    cases h : lookupLive st now res.key <;> simp [Release, delCmd, h]
  refine ⟨by rw [h1res], ?_, ?_, ?_⟩ <;>
    rw [h1res, h1st] <;>
    simp [Release, delCmd, lookupLive_eraseKey]

/-- C10: whenever `Lock` returns an error, no renewal goroutine has been
started and the store is exactly as before the call; the Except result
itself carries no reservation, so no lease state exists either. -/
theorem lock_error_no_effects (m : Manager) (jobID resource : String) (st : Store)
    (now : Nat) (setFault : Option String) (e : String)
    (h : (Lock m jobID resource st now setFault).result = Except.error e) :
    (Lock m jobID resource st now setFault).tasksStarted = 0 ∧
    (Lock m jobID resource st now setFault).store = st := by
  cases setFault with
  | some f => exact ⟨rfl, rfl⟩
  | none =>
    cases hl : lookupLive st now (redisKey resource) with
    | some v => rw [Lock_of_held m jobID resource st now v hl]; exact ⟨rfl, rfl⟩
    | none =>
      rw [Lock_of_free m jobID resource st now hl] at h
      exact absurd h (by simp)

/-- Witness for C10: a contended `Lock` errors, starts no task and leaves
the single-entry store untouched. -/
theorem lock_error_no_effects_w :
    (Lock (newManagerDefaults "w") "1" "r"
        [("reservation-r", ⟨"o", 5⟩)] 0 none).tasksStarted = 0 ∧
    (Lock (newManagerDefaults "w") "1" "r"
        [("reservation-r", ⟨"o", 5⟩)] 0 none).store =
      [("reservation-r", ⟨"o", 5⟩)] :=
  lock_error_no_effects (newManagerDefaults "w") "1" "r"
    [("reservation-r", ⟨"o", 5⟩)] 0 none (alreadyExistsMsg "r") (by rfl)

/-- `WaitUntilLock` run against `k` attempts that find the key held
followed by one that finds it free acquires the reservation after exactly
`k` one-second sleeps (one per retry, starting from `s` already taken). -/
theorem waitUntilLock_replicate (m : Manager) (jobID resource : String)
    (held free : AttemptEnv) (v : String)
    (hheld : lookupLive held.store held.now (redisKey resource) = some v)
    (hhf : held.fault = none)
    (hfr : lookupLive free.store free.now (redisKey resource) = none)
    (hff : free.fault = none) :
    ∀ k s, WaitUntilLock m jobID resource (List.replicate k held ++ [free]) s =
      WaitResult.acquired
        { stopped := false, key := redisKey resource,
          Value := m.owner ++ "-" ++ jobID, ttl := m.TTL } (s + k) := by
  intro k
  induction k with
  | zero =>
    intro s
    simp only [List.replicate, List.nil_append, WaitUntilLock, hff,
      Lock_of_free m jobID resource free.store free.now hfr]
    rfl
  | succ k ih =>
    intro s
    simp only [List.replicate, List.cons_append, WaitUntilLock, hhf,
      Lock_of_held m jobID resource held.store held.now v hheld]
    have hmatch : reservationAlreadyExists resource (alreadyExistsMsg resource) = true := by
      simp [reservationAlreadyExists]
    simp only [hmatch, if_true]
    refine (ih (s + 1)).trans ?_
    congr 1
    omega

/-- C5: `WaitUntilLock` retries `Lock` exactly when the failure is the
already-exists error, taking one fixed one-second sleep per retry; a
success is returned at once with the lease and no error; any other error
propagates immediately; and there is no maximum retry count: for every
`k`, `k` contended attempts followed by a free one end in acquisition
after exactly `k` sleeps. -/
theorem waitUntilLock_retry_policy (m : Manager) (jobID resource : String)
    (e : AttemptEnv) (envs : List AttemptEnv) (s : Nat) :
    (∀ r, (Lock m jobID resource e.store e.now e.fault).result = Except.ok r →
      WaitUntilLock m jobID resource (e :: envs) s = WaitResult.acquired r s) ∧
    ((Lock m jobID resource e.store e.now e.fault).result =
        Except.error (alreadyExistsMsg resource) →
      WaitUntilLock m jobID resource (e :: envs) s =
        WaitUntilLock m jobID resource envs (s + 1)) ∧
    (∀ err, (Lock m jobID resource e.store e.now e.fault).result = Except.error err →
      err ≠ alreadyExistsMsg resource →
      WaitUntilLock m jobID resource (e :: envs) s = WaitResult.failed err s) ∧
    (∀ (k : Nat) (held free : AttemptEnv) (v : String),
      lookupLive held.store held.now (redisKey resource) = some v → held.fault = none →
      lookupLive free.store free.now (redisKey resource) = none → free.fault = none →
      WaitUntilLock m jobID resource (List.replicate k held ++ [free]) 0 =
        WaitResult.acquired
          { stopped := false, key := redisKey resource,
            Value := m.owner ++ "-" ++ jobID, ttl := m.TTL } k) := by
  refine ⟨?_, ?_, ?_, ?_⟩
  · intro r h
    simp only [WaitUntilLock, h]
  · intro h
    simp only [WaitUntilLock, h]
    simp [reservationAlreadyExists]
  · intro err h hne
    simp only [WaitUntilLock, h]
    simp [reservationAlreadyExists, hne]
  · intro k held free v hheld hhf hfr hff
    have := waitUntilLock_replicate m jobID resource held free v hheld hhf hfr hff k 0
    simpa using this

/-- Witness for C5: two contended attempts then a free one acquire the
lease after exactly two one-second sleeps. -/
theorem waitUntilLock_retry_policy_w :
    WaitUntilLock (newManagerDefaults "w") "1" "res"
      (List.replicate 2 ⟨[("reservation-res", ⟨"o", 10⟩)], 0, none⟩ ++
        [⟨[], 0, none⟩]) 0 =
      WaitResult.acquired
        { stopped := false, key := redisKey "res",
          Value := (newManagerDefaults "w").owner ++ "-" ++ "1",
          ttl := (newManagerDefaults "w").TTL } 2 :=
  (waitUntilLock_retry_policy (newManagerDefaults "w") "1" "res"
      ⟨[], 0, none⟩ [] 0).2.2.2 2 ⟨[("reservation-res", ⟨"o", 10⟩)], 0, none⟩
    ⟨[], 0, none⟩ "o" (by rfl) rfl (by rfl) rfl

/-- C7: the reservation key is derived deterministically as
"reservation-" ++ resourceID, and after a successful `Lock` the identity
recorded under that key — the lease's Value — is exactly what a GET reads
back at any instant before the TTL has elapsed (and no Release has
intervened, the store being exactly the post-Lock one). -/
theorem redisKey_roundtrip (m : Manager) (jobID resource : String) (st : Store)
    (now : Nat) (hfree : lookupLive st now (redisKey resource) = none) :
    redisKey resource = "reservation-" ++ resource ∧
    ∃ r : Reservation, (Lock m jobID resource st now none).result = Except.ok r ∧
      r.Value = m.owner ++ "-" ++ jobID ∧
      ∀ t, t < now + m.TTL →
        getCmd ((Lock m jobID resource st now none).store) t (redisKey resource) =
          some r.Value := by
  refine ⟨rfl,
    ⟨{ stopped := false, key := redisKey resource,
       Value := m.owner ++ "-" ++ jobID, ttl := m.TTL }, ?_, rfl, ?_⟩⟩
  · rw [Lock_of_free m jobID resource st now hfree]
  · intro t ht
    rw [Lock_of_free m jobID resource st now hfree]
    show getCmd ((redisKey resource, ⟨m.owner ++ "-" ++ jobID, now + m.TTL⟩) ::
      eraseKey st (redisKey resource)) t (redisKey resource) = _
    rw [getCmd, lookupLive_cons_self]
    simp [ht]

/-- Witness for C7: a concrete acquisition on an empty store reads back
the holder identity via GET an hour later. -/
theorem redisKey_roundtrip_w :
    getCmd ((Lock (newManagerDefaults "w") "7" "res" [] 0 none).store) 3600
      (redisKey "res") = some ((newManagerDefaults "w").owner ++ "-" ++ "7") := by
  obtain ⟨-, r, -, hval, hget⟩ :=
    redisKey_roundtrip (newManagerDefaults "w") "7" "res" [] 0 (by rfl)
  rw [hget 3600 (by decide), hval]

/-- A list of already-exists failures contains no success. -/
theorem countP_errors (l : List (Manager × String)) (msg : String) :
    (l.map fun _ => (Except.error msg : Except String Reservation)).countP isOkRes = 0 := by
  induction l with
  | nil => rfl
  | cons c cs ih => simp [List.countP_cons, isOkRes, ih]

/-- While the key is live, any serialisation of `Lock` calls leaves the
store unchanged and every call fails with the already-exists error. -/
theorem runLocks_of_held (resource : String) (now : Nat) (v : String) :
    ∀ (callers : List (Manager × String)) (st : Store),
      lookupLive st now (redisKey resource) = some v →
      runLocks resource now callers st =
        (callers.map fun _ => Except.error (alreadyExistsMsg resource), st) := by
  intro callers
  induction callers with
  | nil => intro st _; rfl
  | cons c cs ih =>
    intro st h
    simp only [runLocks, Lock_of_held c.1 c.2 resource st now v h]
    rw [ih st h]
    simp

/-- C1: among any set of concurrent `Lock` calls for resource R —
serialised in an arbitrary order by the store's atomic conditional SET,
the sole arbiter — exactly one succeeds (the one the store serialises
first) and every other observes the already-exists error; while the
winner's entry is live any further `Lock` still fails the same way, the
moment the winner's TTL has elapsed a fresh `Lock` succeeds, and after the
winner's `Release` a fresh `Lock` succeeds as well. -/
theorem lock_concurrent_exclusive (c : Manager × String)
    (cs : List (Manager × String)) (resource : String) (st : Store) (now : Nat)
    (results : List (Except String Reservation)) (stAfter : Store)
    (hout : runLocks resource now (c :: cs) st = (results, stAfter))
    (hfree : lookupLive st now (redisKey resource) = none)
    (httl : 0 < c.1.TTL) :
    results.countP isOkRes = 1 ∧
    results =
      Except.ok { stopped := false, key := redisKey resource,
                  Value := c.1.owner ++ "-" ++ c.2, ttl := c.1.TTL } ::
        (cs.map fun _ => Except.error (alreadyExistsMsg resource)) ∧
    (∀ t, t < now + c.1.TTL → ∀ (m' : Manager) (job' : String),
      (Lock m' job' resource stAfter t none).result =
        Except.error (alreadyExistsMsg resource)) ∧
    (∀ t, now + c.1.TTL ≤ t → ∀ (m' : Manager) (job' : String),
      isOkRes (Lock m' job' resource stAfter t none).result = true) ∧
    (∀ (trel t' : Nat) (m' : Manager) (job' : String),
      isOkRes (Lock m' job' resource
        (Release { stopped := false, key := redisKey resource,
                   Value := c.1.owner ++ "-" ++ c.2, ttl := c.1.TTL }
          stAfter trel none).store t' none).result = true) := by
  have hlive : ∀ t, t < now + c.1.TTL →
      lookupLive ((redisKey resource, ⟨c.1.owner ++ "-" ++ c.2, now + c.1.TTL⟩) ::
        eraseKey st (redisKey resource)) t (redisKey resource) =
        some (c.1.owner ++ "-" ++ c.2) := by
    intro t ht
    rw [lookupLive_cons_self]
    simp [ht]
  have hrun : runLocks resource now (c :: cs) st =
      (Except.ok { stopped := false, key := redisKey resource,
                   Value := c.1.owner ++ "-" ++ c.2, ttl := c.1.TTL } ::
         (cs.map fun _ => Except.error (alreadyExistsMsg resource)),
       (redisKey resource, ⟨c.1.owner ++ "-" ++ c.2, now + c.1.TTL⟩) ::
         eraseKey st (redisKey resource)) := by
    simp only [runLocks, Lock_of_free c.1 c.2 resource st now hfree]
    rw [runLocks_of_held resource now (c.1.owner ++ "-" ++ c.2) cs _
      (hlive now (by omega))]
  rw [hrun] at hout
  obtain ⟨hres, hst⟩ := Prod.mk.injEq .. ▸ hout
  subst hres
  subst hst
  refine ⟨?_, rfl, ?_, ?_, ?_⟩
  · simp [List.countP_cons, isOkRes, countP_errors]
  · intro t ht m' job'
    rw [Lock_of_held m' job' resource _ t (c.1.owner ++ "-" ++ c.2) (hlive t ht)]
  · intro t ht m' job'
    have hdead : lookupLive ((redisKey resource,
        ⟨c.1.owner ++ "-" ++ c.2, now + c.1.TTL⟩) ::
        eraseKey st (redisKey resource)) t (redisKey resource) = none := by
      rw [lookupLive_cons_self]
      simp
      omega
    rw [Lock_of_free m' job' resource _ t hdead]
    rfl
  · intro trel t' m' job'
    have hrel : (Release
        { stopped := false, key := redisKey resource,
          Value := c.1.owner ++ "-" ++ c.2, ttl := c.1.TTL }
        ((redisKey resource, ⟨c.1.owner ++ "-" ++ c.2, now + c.1.TTL⟩) ::
          eraseKey st (redisKey resource)) trel none).store =
        eraseKey ((redisKey resource, ⟨c.1.owner ++ "-" ++ c.2, now + c.1.TTL⟩) ::
          eraseKey st (redisKey resource)) (redisKey resource) := by
      cases h : lookupLive ((redisKey resource,
          ⟨c.1.owner ++ "-" ++ c.2, now + c.1.TTL⟩) ::
          eraseKey st (redisKey resource)) trel (redisKey resource) <;>
        simp [Release, delCmd, h]
    rw [hrel, Lock_of_free m' job' resource _ t' (lookupLive_eraseKey _ t' _)]
    rfl

/-- Witness for C1: three concurrent acquisitions of one resource on an
empty store produce exactly one success. -/
theorem lock_concurrent_exclusive_w :
    (runLocks "res" 0 [(newManagerDefaults "a", "1"), (newManagerDefaults "b", "2"),
      (newManagerDefaults "c", "3")] []).1.countP isOkRes = 1 :=
  (lock_concurrent_exclusive (newManagerDefaults "a", "1")
    [(newManagerDefaults "b", "2"), (newManagerDefaults "c", "3")] "res" [] 0
    (runLocks "res" 0 [(newManagerDefaults "a", "1"), (newManagerDefaults "b", "2"),
      (newManagerDefaults "c", "3")] []).1
    (runLocks "res" 0 [(newManagerDefaults "a", "1"), (newManagerDefaults "b", "2"),
      (newManagerDefaults "c", "3")] []).2
    rfl rfl (by decide)).1

/-- C8 counterexample: the two duration fields are exported and mutable
with no validation, so reconfiguration is not invariant-preserving — a
single assignment of 5 hours to Heartbeat leaves Heartbeat ≥ TTL on an
otherwise default manager. -/
theorem heartbeat_lt_ttl_not_preserved :
    ¬ ((setHeartbeat (newManagerDefaults "worker") (5 * 60 * 60)).Heartbeat <
        (setHeartbeat (newManagerDefaults "worker") (5 * 60 * 60)).TTL) := by
  decide

/-- C8 amended: every manager `NewManager` returns starts with heartbeat
interval (15 minutes) strictly less than TTL (4 hours); the code does not
enforce the inequality across later assignments to the two exported
mutable fields. -/
theorem heartbeat_lt_ttl_defaults (owner : String) :
    ∃ m : Manager, NewManager owner none = Except.ok m ∧ m.Heartbeat < m.TTL :=
  ⟨newManagerDefaults owner, rfl, by norm_num [newManagerDefaults]⟩

end GoRedisReservation
